import Mathlib

/-!
Verification development for the SmartHeating controller
(`src/sh_logic.py`, `src/sh_hal.py`, `src/sh_config.py`, `src/SmartHeating.py`).

Shallow embedding conventions:
* Python `float` values are modelled as rationals (`ℚ`); the IEEE NaN
  produced by `sh_wam` on a length mismatch is modelled by `Option ℚ`
  with `none` standing for the not-a-number result.
* HAL reads happen once per cycle in a single thread, so the collected
  flag booleans in `SysValues` coincide with the values the stage
  functions re-read through the HAL; the raw HAL flag access itself is
  modelled separately (`sh_get_flag_value`) over `Option String` states.
* `self.handle_hw_error` (which logs and enters the safe state that
  cancels future timers) is modelled as a `Bool` fault-output of the
  functions that may call it; it does not interrupt the current cycle,
  exactly as in the Python code.
* Python `round(x, n)` rounds half to even; `roundTo` mirrors that on
  exact rationals.
-/

namespace SmartHeating

/-- Floor heating room index enumeration (`sh_types.ROOM_INDEX_FH`). -/
inductive ROOM_INDEX_FH
  | LIVINGROOM
  | CORRIDOR
  | BATHROOM
  | ENTRANCE
  | UPPER_CORRIDOR
  | WARDROBE
  | UPPER_BATHROOM
deriving DecidableEq

/-- `.value` of the Python enum members of `ROOM_INDEX_FH`. -/
def ROOM_INDEX_FH.value : ROOM_INDEX_FH → Nat
  | .LIVINGROOM => 0
  | .CORRIDOR => 1
  | .BATHROOM => 2
  | .ENTRANCE => 3
  | .UPPER_CORRIDOR => 4
  | .WARDROBE => 5
  | .UPPER_BATHROOM => 6

/-- Radiator heating room index enumeration (`sh_types.ROOM_INDEX_RAD`). -/
inductive ROOM_INDEX_RAD
  | OFFICE
  | KIDSROOM
  | BEDROOM
  | GARAGE
deriving DecidableEq

/-- `.value` of the Python enum members of `ROOM_INDEX_RAD`. -/
def ROOM_INDEX_RAD.value : ROOM_INDEX_RAD → Nat
  | .OFFICE => 0
  | .KIDSROOM => 1
  | .BEDROOM => 2
  | .GARAGE => 3

/-- TRV valve index enumeration (`sh_types.TRV_INDEX`). -/
inductive TRV_INDEX
  | OFFICE
  | KIDSROOM
  | BEDROOM_LEFT
  | BEDROOM_RIGHT
  | GARAGE
deriving DecidableEq

/-- `.value` of the Python enum members of `TRV_INDEX`. -/
def TRV_INDEX.value : TRV_INDEX → Nat
  | .OFFICE => 0
  | .KIDSROOM => 1
  | .BEDROOM_LEFT => 2
  | .BEDROOM_RIGHT => 3
  | .GARAGE => 4

/-- Configuration loaded once at startup (`sh_config.init_config`). -/
structure Config where
  warm_flag_offset : ℚ
  frezzying_flag_offset : ℚ
  error_offset_update_threshold : ℚ
  force_flow_offset : ℚ
  radiator_boost_threshold : ℚ
  rads_error_factor : ℚ
  force_burn_thres : ℚ
  wam_params : List ℚ
  rads_params : List ℚ
deriving DecidableEq

/-- Per-cycle snapshot of the system taken by `collect_system_values`. -/
structure SysValues where
  thermostat_setpoint : ℚ
  corridor_setpoint : ℚ
  wam_errors : List ℚ
  rads_error : List ℚ
  warm_flag : Bool
  freezing_flag : Bool
  force_flow_flag : Bool
  radiator_positions : List ℚ
deriving DecidableEq

/-- `sh_logic.sh_wam`: weighted arithmetic mean of `temperatures` with
`weights`.  The Python function returns NaN when the list lengths differ,
modelled here as `none`; otherwise it returns
`sum(temp * weight for temp, weight in zip(...)) / sum(weights)`. -/
def sh_wam (temperatures weights : List ℚ) : Option ℚ :=
  if temperatures.length ≠ weights.length then
    none
  else
    some ((((temperatures.zip weights).map fun p => p.1 * p.2).sum) / weights.sum)

/-- Round-half-to-even on rationals, the tie rule of Python `round`. -/
def rndHalfEven (x : ℚ) : ℤ :=
  if x - ⌊x⌋ < 1 / 2 then ⌊x⌋
  else if 1 / 2 < x - ⌊x⌋ then ⌊x⌋ + 1
  else if ⌊x⌋ % 2 = 0 then ⌊x⌋ else ⌊x⌋ + 1

/-- Python `round(x, n)` on an exact rational. -/
def roundTo (n : Nat) (x : ℚ) : ℚ :=
  (rndHalfEven (x * 10 ^ n) : ℚ) / 10 ^ n

/-- `sh_logic.sh_apply_wam_voting`: adds the rounded weighted error mean to
the running offset.  When the mean is the undefined (NaN) result, the code
logs, calls `handle_hw_error` (second component `true`) and returns the
incoming offset unchanged. -/
def sh_apply_wam_voting (cfg : Config) (s : SysValues) (off_final : ℚ) : ℚ × Bool :=
  match sh_wam s.wam_errors cfg.wam_params with
  | none => (off_final, true)
  | some w => (off_final + roundTo 2 w, false)

/-- `sh_hal.sh_get_offset_warm_flag` as seen by the rule chain: the warm
flag read in this cycle contributes the configured offset when on, else 0. -/
def sh_get_offset_warm_flag (cfg : Config) (s : SysValues) : ℚ :=
  if s.warm_flag then cfg.warm_flag_offset else 0

/-- `sh_hal.sh_get_offset_frezzing_flag` as seen by the rule chain. -/
def sh_get_offset_frezzing_flag (cfg : Config) (s : SysValues) : ℚ :=
  if s.freezing_flag then cfg.frezzying_flag_offset else 0

/-- `sh_logic.sh_apply_warm_flag`. -/
def sh_apply_warm_flag (cfg : Config) (s : SysValues) (off_final : ℚ) : ℚ :=
  off_final + sh_get_offset_warm_flag cfg s

/-- `sh_logic.sh_apply_weather_forecast`. -/
def sh_apply_weather_forecast (cfg : Config) (s : SysValues) (off_final : ℚ) : ℚ :=
  off_final + sh_get_offset_frezzing_flag cfg s

/-- `sh_logic.sh_check_forced_burn`.  The guard mirrors
`(wam_errors[CORRIDOR] + off_final) < 0 and any(a > force_burn_thres for a
in rads_error)`; the addend mirrors
`sum(max(a, 0) for a in [e * w for e, w in ...]) * rads_error_factor`
where each radiator error is first multiplied by its factor. -/
def sh_check_forced_burn (cfg : Config) (s : SysValues) (off_final : ℚ) : ℚ :=
  if s.wam_errors.getD ROOM_INDEX_FH.CORRIDOR.value 0 + off_final < 0 ∧
      ∃ a ∈ s.rads_error, cfg.force_burn_thres < a then
    let modified_rads_error : List ℚ :=
      s.rads_error.enum.map fun p => p.2 * cfg.rads_params.getD p.1 0
    off_final + (modified_rads_error.map fun a => max a 0).sum * cfg.rads_error_factor
  else
    off_final

/-- `sh_logic.sh_force_flow_for_safety_prio`. -/
def sh_force_flow_for_safety_prio (cfg : Config) (s : SysValues) (off_final : ℚ) : ℚ :=
  if 0 < s.rads_error.getD ROOM_INDEX_RAD.BEDROOM.value 0 then
    if s.force_flow_flag then cfg.force_flow_offset else off_final
  else
    off_final

/-- `sh_hal.sh_set_value` restricted to its value computation: the actual
number written to the HAL, with the optional floor clamp
`value = max(min_value, value)`. -/
def sh_set_value_written (value : ℚ) (min_value : Option ℚ) : ℚ :=
  match min_value with
  | some m => max m value
  | none => value

/-- `sh_hal.sh_set_thermostat_setpoint`: writes with `min_value=15.0`. -/
def sh_set_thermostat_setpoint (value : ℚ) : ℚ :=
  sh_set_value_written value (some 15)

/-- Result of `sh_logic.sh_update_thermostat`: the candidate setpoint, the
returned update boolean, and the value actually written to the HAL
(`none` when no write was issued). -/
structure ThermoUpdate where
  new_thermostat_setpoint : ℚ
  updated : Bool
  written : Option ℚ
deriving DecidableEq

/-- `sh_logic.sh_update_thermostat`. -/
def sh_update_thermostat (cfg : Config) (s : SysValues) (off_final : ℚ) : ThermoUpdate :=
  let new_thermostat_setpoint : ℚ :=
    (s.corridor_setpoint - s.wam_errors.getD ROOM_INDEX_FH.CORRIDOR.value 0) + off_final
  if cfg.error_offset_update_threshold ≤ |s.thermostat_setpoint - new_thermostat_setpoint| then
    ⟨new_thermostat_setpoint, true, some (sh_set_thermostat_setpoint new_thermostat_setpoint)⟩
  else
    ⟨new_thermostat_setpoint, false, none⟩

/-- `sh_logic.update_trv`: boost is commanded exactly when the room error
exceeds 0.5 and the valve position is below the boost threshold. -/
def update_trv (cfg : Config) (s : SysValues) (room : ROOM_INDEX_RAD) (trv : TRV_INDEX) : Bool :=
  decide (0.5 < s.rads_error.getD room.value 0 ∧
    s.radiator_positions.getD trv.value 0 < cfg.radiator_boost_threshold)

/-- The `trv_mappings` dictionary of `sh_logic.sh_update_TRVs`, in its
insertion (iteration) order; the bedroom tuple is flattened in the order
`(BEDROOM_LEFT, BEDROOM_RIGHT)` used by `update_multiple_trvs`. -/
def trv_mappings : List (ROOM_INDEX_RAD × List TRV_INDEX) :=
  [(.OFFICE, [.OFFICE]),
   (.KIDSROOM, [.KIDSROOM]),
   (.BEDROOM, [.BEDROOM_LEFT, .BEDROOM_RIGHT]),
   (.GARAGE, [.GARAGE])]

/-- `sh_logic.sh_update_TRVs`: the per-valve boost decisions issued in one
invocation, in iteration order. -/
def sh_update_TRVs (cfg : Config) (s : SysValues) : List (TRV_INDEX × Bool) :=
  trv_mappings.flatMap fun p => p.2.map fun trv => (trv, update_trv cfg s p.1 trv)

/-- The radiator zone owning each valve, read off the `trv_mappings`
dictionary of the source. -/
def trvOwner : TRV_INDEX → ROOM_INDEX_RAD
  | .OFFICE => .OFFICE
  | .KIDSROOM => .KIDSROOM
  | .BEDROOM_LEFT => .BEDROOM
  | .BEDROOM_RIGHT => .BEDROOM
  | .GARAGE => .GARAGE

/-- `sh_hal.sh_get_flag_value` over the raw backing state
(`none` models a `None` state).  First component: the boolean returned;
second component: whether `handle_hw_error` was called (only for a
missing entity id). -/
def sh_get_flag_value (flag_entity : String) (st : Option String) : Bool × Bool :=
  if flag_entity = "" then
    (false, true)
  else if st = none ∨ st = some "unknown" ∨ st = some "unavailable" then
    (false, false)
  else
    (decide (st = some "on"), false)

/-- `sh_hal.sh_get_offset_flag` over the raw backing state. -/
def sh_get_offset_flag (flag_entity : String) (st : Option String) (offset_value : ℚ) : ℚ :=
  if (sh_get_flag_value flag_entity st).1 then offset_value else 0

/-- Result of `calculate_final_offset`: final offset, reasons, and whether
a hardware fault was signalled by the voting stage. -/
structure ChainResult where
  off_final : ℚ
  reasons : List String
  hw_fault : Bool
deriving DecidableEq

/-- `SmartHeating.calculate_final_offset`: the five ordered stages folded
over the running offset, recording a reason whenever a stage changed the
value. -/
def calculate_final_offset (cfg : Config) (s : SysValues) (off0 : ℚ) : ChainResult :=
  let w := sh_apply_wam_voting cfg s off0
  let o1 := w.1
  let r1 : List String := if o1 ≠ off0 then ["wam"] else []
  let o2 := sh_apply_warm_flag cfg s o1
  let r2 := if o2 ≠ o1 then r1 ++ ["warm_flag"] else r1
  let o3 := sh_apply_weather_forecast cfg s o2
  let r3 := if o3 ≠ o2 then r2 ++ ["freezing_flag"] else r2
  let o4 := sh_check_forced_burn cfg s o3
  let r4 := if o4 ≠ o3 then r3 ++ ["forced_burn"] else r3
  let o5 := sh_force_flow_for_safety_prio cfg s o4
  let r5 := if o5 ≠ o4 then r4 ++ ["force_flow"] else r4
  ⟨o5, r5, w.2⟩

/-- Per-cycle output of `SmartHeating.sh_main_loop`: the chain result, the
offset rounded to one decimal (which the loop records as
`last_output_offset` and passes to the actuation gate), and the thermostat
update. -/
structure CycleOutput where
  off_final : ℚ
  off_final_rounded : ℚ
  reasons : List String
  hw_fault : Bool
  thermo : ThermoUpdate
deriving DecidableEq

/-- `SmartHeating.sh_main_loop` (the offset/actuation path): starts from
offset `0`, runs the rule chain, rounds to one decimal place and feeds the
rounded value to `sh_update_thermostat`. -/
def sh_main_loop (cfg : Config) (s : SysValues) : CycleOutput :=
  let c := calculate_final_offset cfg s 0
  let off_final_rounded := roundTo 1 c.off_final
  ⟨c.off_final, off_final_rounded, c.reasons, c.hw_fault,
    sh_update_thermostat cfg s off_final_rounded⟩

/-- `sh_config.init_params_from_args`: normalizes a raw factor map.  The
map is modelled as an association list (`none` models a missing or
non-dict value); room keys are looked up in enum order and each factor is
divided by the sum of all map values.  `Except.error` models the raise in
`handle_config_error`. -/
def init_params_from_args (factor_data : Option (List (String × ℚ)))
    (rooms : List String) : Except String (List ℚ) :=
  match factor_data with
  | none => Except.error "missing factor map"
  | some fd =>
    if fd.isEmpty then Except.error "missing factor map"
    else
      let factors_sum : ℚ := (fd.map Prod.snd).sum
      if factors_sum ≤ 0 then Except.error "sum of factors must be positive"
      else
        rooms.mapM fun room =>
          match fd.lookup room with
          | none => Except.error ("missing factor " ++ room)
          | some v => Except.ok (v / factors_sum)

/-- Lower-cased names of `ROOM_INDEX_FH`, the keys used by
`init_wam_params`. -/
def fh_room_names : List String :=
  ["livingroom", "corridor", "bathroom", "entrance",
   "upper_corridor", "wardrobe", "upper_bathroom"]

/-- Lower-cased names of `ROOM_INDEX_RAD`, the keys used by
`init_rads_params`. -/
def rad_room_names : List String :=
  ["office", "kidsroom", "bedroom", "garage"]

/-- `sh_config.init_wam_params`. -/
def init_wam_params (factor_data : Option (List (String × ℚ))) : Except String (List ℚ) :=
  init_params_from_args factor_data fh_room_names

/-- `sh_config.init_rads_params`. -/
def init_rads_params (factor_data : Option (List (String × ℚ))) : Except String (List ℚ) :=
  init_params_from_args factor_data rad_room_names

/-- Baseline concrete configuration used to exercise the definitions. -/
def sampleCfg : Config :=
  { warm_flag_offset := 2
    frezzying_flag_offset := 1
    error_offset_update_threshold := 1 / 2
    force_flow_offset := 3
    radiator_boost_threshold := 50
    rads_error_factor := 1
    force_burn_thres := 1 / 2
    wam_params := [1/7, 1/7, 1/7, 1/7, 1/7, 1/7, 1/7]
    rads_params := [1/4, 1/4, 1/4, 1/4] }

/-- Baseline concrete system snapshot used to exercise the definitions. -/
def sampleSys : SysValues :=
  { thermostat_setpoint := 21
    corridor_setpoint := 20
    wam_errors := [0, 0, 0, 0, 0, 0, 0]
    rads_error := [0, 0, 0, 0]
    warm_flag := false
    freezing_flag := false
    force_flow_flag := false
    radiator_positions := [50, 50, 50, 50, 50] }

/-- Configuration for the forced-burn analysis: radiator weights as
produced by normalizing raw factors (-2, 1, 1, 2), a legal configuration
since their sum 2 is positive. -/
def cexCfgC4 : Config := { sampleCfg with rads_params := [-1, 1/2, 1/2, 1] }

/-- System snapshot for the forced-burn analysis: corridor error -2 and a
single positive office radiator error 1 above the threshold 1/2. -/
def cexSysC4 : SysValues :=
  { sampleSys with wam_errors := [0, -2, 0, 0, 0, 0, 0], rads_error := [1, 0, 0, 0] }

/-- Configuration whose floor-heating weight list is empty, so the voting
lists have mismatched lengths and `sh_wam` is undefined (NaN). -/
def cexCfgC1 : Config := { sampleCfg with wam_params := [] }

/-- System snapshot with the warm flag on and the thermostat far from the
candidate setpoint, so the post-voting stages still act. -/
def cexSysC1 : SysValues :=
  { sampleSys with thermostat_setpoint := 0, warm_flag := true }

/- ------------------------------------------------------------------ -/
/- Helper lemmas                                                      -/
/- ------------------------------------------------------------------ -/

theorem zip_mul_sum_eq (t w : List ℚ) (h : t.length = w.length) :
    ((t.zip w).map fun p => p.1 * p.2).sum
      = ∑ i ∈ Finset.range t.length, t.getD i 0 * w.getD i 0 := by
  induction t generalizing w with
  | nil => simp
  | cons a t ih =>
    cases w with
    | nil => simp at h
    | cons b w =>
      simp only [List.zip_cons_cons, List.map_cons, List.sum_cons, List.length_cons]
      rw [Finset.sum_range_succ']
      simp only [List.getD_cons_succ, List.getD_cons_zero]
      rw [ih w (by simpa using h)]
      ring

theorem sum_enumFrom_map (f : ℕ → ℚ → ℚ) (l : List ℚ) (k : ℕ) :
    ((l.enumFrom k).map fun p => f p.1 p.2).sum
      = ∑ i ∈ Finset.range l.length, f (k + i) (l.getD i 0) := by
  induction l generalizing k with
  | nil => simp
  | cons a l ih =>
    simp only [List.enumFrom_cons, List.map_cons, List.sum_cons, List.length_cons]
    rw [Finset.sum_range_succ', ih (k + 1)]
    simp only [List.getD_cons_succ, List.getD_cons_zero, Nat.add_zero]
    rw [add_comm]
    congr 1
    refine Finset.sum_congr rfl fun i _ => ?_
    congr 1
    omega

theorem sum_enum_map (f : ℕ → ℚ → ℚ) (l : List ℚ) :
    (l.enum.map fun p => f p.1 p.2).sum
      = ∑ i ∈ Finset.range l.length, f i (l.getD i 0) := by
  rw [List.enum_eq_enumFrom, sum_enumFrom_map]
  simp

theorem sum_map_div (g : String → ℚ) (c : ℚ) (l : List String) :
    (l.map fun x => g x / c).sum = (l.map g).sum / c := by
  induction l with
  | nil => simp
  | cons a l ih => simp [ih, add_div]

theorem lookup_map_self (f : String → ℚ) (rooms : List String) (r : String)
    (hr : r ∈ rooms) :
    (rooms.map fun x => (x, f x)).lookup r = some (f r) := by
  induction rooms with
  | nil => cases hr
  | cons a l ih =>
    simp only [List.map_cons, List.lookup_cons]
    by_cases h : r = a
    · simp [h]
    · have hm : r ∈ l := by
        rcases List.mem_cons.mp hr with h1 | h1
        · exact absurd h1 h
        · exact h1
      rw [show (r == a) = false from beq_eq_false_iff_ne.mpr h]
      simpa using ih hm

/- ------------------------------------------------------------------ -/
/- Claims                                                             -/
/- ------------------------------------------------------------------ -/

/-- Claim C5: for equal-length error and weight lists (with the weight sum
nonzero, as guaranteed by weight normalization), the weighted error
aggregator returns `sum(error_i * weight_i) / sum(weight_i)`; for lists of
different lengths it returns the explicit undefined (NaN, modelled `none`)
result instead of raising. -/
theorem sh_wam_spec (t w : List ℚ) :
    (t.length = w.length → w.sum ≠ 0 →
      sh_wam t w
        = some ((∑ i ∈ Finset.range t.length, t.getD i 0 * w.getD i 0) / w.sum)) ∧
    (t.length ≠ w.length → sh_wam t w = none) := by
  constructor
  · intro h _
    rw [sh_wam, if_neg (by simp [h]), zip_mul_sum_eq t w h]
  · intro h
    rw [sh_wam, if_pos h]

/-- Witness for C5 at concrete inputs. -/
theorem sh_wam_spec_witness :
    sh_wam [1, 2, 3] [1, 1, 2]
        = some ((∑ i ∈ Finset.range 3, ([1, 2, 3] : List ℚ).getD i 0
            * ([1, 1, 2] : List ℚ).getD i 0) / ([1, 1, 2] : List ℚ).sum) ∧
    sh_wam [1] ([] : List ℚ) = none := by
  constructor
  · exact (sh_wam_spec [1, 2, 3] [1, 1, 2]).1 (by decide)
      (by norm_num [List.sum_cons, List.sum_nil])
  · exact (sh_wam_spec [1] []).2 (by decide)

/-- Claim C8: the weighted error aggregator is invariant under a
simultaneous permutation of the (error, weight) pairs of both lists. -/
theorem sh_wam_perm_invariant (es ws es2 ws2 : List ℚ)
    (h : es.length = ws.length) (h2 : es2.length = ws2.length)
    (hp : (es.zip ws).Perm (es2.zip ws2)) :
    sh_wam es ws = sh_wam es2 ws2 := by
  have hsnd : List.map Prod.snd (es.zip ws) = ws := List.map_snd_zip es ws h.ge
  have hsnd2 : List.map Prod.snd (es2.zip ws2) = ws2 := List.map_snd_zip es2 ws2 h2.ge
  have hws : ws.sum = ws2.sum := by
    rw [← hsnd, ← hsnd2]
    exact (hp.map Prod.snd).sum_eq
  have hnum : ((es.zip ws).map fun p => p.1 * p.2).sum
      = ((es2.zip ws2).map fun p => p.1 * p.2).sum :=
    (hp.map fun p => p.1 * p.2).sum_eq
  have hl : es.length = es2.length := by
    have hz := hp.length_eq
    rw [List.length_zip, List.length_zip, ← h, ← h2, min_self, min_self] at hz
    exact hz
  rw [sh_wam, sh_wam, if_neg (by simp [h]), if_neg (by simp [h2]), hnum, hws]

/-- Witness for C8 at concrete inputs: swapping the two (error, weight)
pairs leaves the weighted mean unchanged. -/
theorem sh_wam_perm_invariant_witness :
    sh_wam [1, 2] [3, 4] = sh_wam [2, 1] [4, 3] := by
  exact sh_wam_perm_invariant [1, 2] [3, 4] [2, 1] [4, 3] (by decide) (by decide)
    (by decide)

/-- Claim C2: for every input state, the safety force-flow stage returns
exactly the configured force-flow-offset when the bedroom radiator-zone
error is strictly positive and the force-flow flag is on (independently of
the incoming offset computed by stages 1 to 4, which is universally
quantified here); otherwise it returns its input offset unchanged. -/
theorem sh_force_flow_for_safety_prio_spec (cfg : Config) (s : SysValues) (off : ℚ) :
    (0 < s.rads_error.getD ROOM_INDEX_RAD.BEDROOM.value 0 ∧ s.force_flow_flag = true →
      sh_force_flow_for_safety_prio cfg s off = cfg.force_flow_offset) ∧
    (¬(0 < s.rads_error.getD ROOM_INDEX_RAD.BEDROOM.value 0 ∧ s.force_flow_flag = true) →
      sh_force_flow_for_safety_prio cfg s off = off) := by
  unfold sh_force_flow_for_safety_prio
  constructor
  · rintro ⟨h1, h2⟩
    rw [if_pos h1, if_pos h2]
  · intro h
    by_cases h1 : 0 < s.rads_error.getD ROOM_INDEX_RAD.BEDROOM.value 0
    · have h2 : ¬(s.force_flow_flag = true) := fun hf => h ⟨h1, hf⟩
      rw [if_pos h1, if_neg h2]
    · rw [if_neg h1]

/-- Witness for C2: with bedroom error 1 and the flag on, a prior offset 7
is replaced by the configured 3; with the flag off it is kept. -/
theorem sh_force_flow_for_safety_prio_spec_witness :
    sh_force_flow_for_safety_prio sampleCfg
        { sampleSys with rads_error := [0, 0, 1, 0], force_flow_flag := true } 7 = 3 ∧
    sh_force_flow_for_safety_prio sampleCfg sampleSys 7 = 7 := by
  constructor
  · exact (sh_force_flow_for_safety_prio_spec sampleCfg
      { sampleSys with rads_error := [0, 0, 1, 0], force_flow_flag := true } 7).1
      ⟨by norm_num [ROOM_INDEX_RAD.value], rfl⟩
  · exact (sh_force_flow_for_safety_prio_spec sampleCfg sampleSys 7).2
      (by simp [ROOM_INDEX_RAD.value, sampleSys])

/-- Claim C3: the actuation gate computes the candidate setpoint
`(corridor_setpoint - corridor_zone_error) + final_offset`, issues a
hardware write exactly when the distance between the current thermostat
setpoint and the candidate reaches the update threshold, writes the
candidate floor-clamped at 15 (never commanding a value below 15), and
returns the candidate together with the update boolean. -/
theorem sh_update_thermostat_spec (cfg : Config) (s : SysValues) (off_final : ℚ) :
    (sh_update_thermostat cfg s off_final).new_thermostat_setpoint
        = (s.corridor_setpoint - s.wam_errors.getD ROOM_INDEX_FH.CORRIDOR.value 0)
          + off_final ∧
    ((sh_update_thermostat cfg s off_final).updated = true ↔
      |s.thermostat_setpoint
          - ((s.corridor_setpoint - s.wam_errors.getD ROOM_INDEX_FH.CORRIDOR.value 0)
            + off_final)| ≥ cfg.error_offset_update_threshold) ∧
    ((sh_update_thermostat cfg s off_final).updated = true →
      (sh_update_thermostat cfg s off_final).written
        = some (max 15
            ((s.corridor_setpoint - s.wam_errors.getD ROOM_INDEX_FH.CORRIDOR.value 0)
              + off_final))) ∧
    ((sh_update_thermostat cfg s off_final).updated = false →
      (sh_update_thermostat cfg s off_final).written = none) ∧
    (∀ v, (sh_update_thermostat cfg s off_final).written = some v → 15 ≤ v) := by
  simp only [sh_update_thermostat, sh_set_thermostat_setpoint, sh_set_value_written]
  by_cases hc : cfg.error_offset_update_threshold ≤
      |s.thermostat_setpoint
        - ((s.corridor_setpoint - s.wam_errors.getD ROOM_INDEX_FH.CORRIDOR.value 0)
          + off_final)|
  · simp only [if_pos hc]
    refine ⟨trivial, ⟨fun _ => hc, fun _ => trivial⟩, fun _ => trivial,
      fun hf => absurd hf (by decide), ?_⟩
    intro v hv
    simp only [Option.some.injEq] at hv
    rw [← hv]
    exact le_max_left 15 _
  · simp only [if_neg hc]
    refine ⟨trivial, ⟨fun ht => absurd ht (by decide), fun hg => absurd hg hc⟩,
      fun ht => absurd ht (by decide), fun _ => trivial, ?_⟩
    intro v hv
    exact Option.noConfusion hv

/-- Witness for C3, exercising the two gate examples of the spec:
threshold 0.5, current setpoint 21; candidate 21.4 gives no write,
candidate 21.6 writes the clamped value 21.6. -/
theorem sh_update_thermostat_spec_witness :
    (sh_update_thermostat sampleCfg sampleSys (7/5)).new_thermostat_setpoint = 107/5 ∧
    (sh_update_thermostat sampleCfg sampleSys (7/5)).written = none ∧
    (sh_update_thermostat sampleCfg sampleSys (8/5)).written = some (108/5) := by
  have h1 := sh_update_thermostat_spec sampleCfg sampleSys (7/5)
  have h2 := sh_update_thermostat_spec sampleCfg sampleSys (8/5)
  have e1 : (sampleSys.corridor_setpoint
      - sampleSys.wam_errors.getD ROOM_INDEX_FH.CORRIDOR.value 0) + 7/5 = 107/5 := by
    norm_num [sampleSys, ROOM_INDEX_FH.value]
  have e2 : (sampleSys.corridor_setpoint
      - sampleSys.wam_errors.getD ROOM_INDEX_FH.CORRIDOR.value 0) + 8/5 = 108/5 := by
    norm_num [sampleSys, ROOM_INDEX_FH.value]
  have ha1 : |sampleSys.thermostat_setpoint - (107/5 : ℚ)| = 2/5 := by
    rw [show sampleSys.thermostat_setpoint - (107/5 : ℚ) = -(2/5) by
      norm_num [sampleSys], abs_neg, abs_of_nonneg (by norm_num : (0:ℚ) ≤ 2/5)]
  have ha2 : |sampleSys.thermostat_setpoint - (108/5 : ℚ)| = 3/5 := by
    rw [show sampleSys.thermostat_setpoint - (108/5 : ℚ) = -(3/5) by
      norm_num [sampleSys], abs_neg, abs_of_nonneg (by norm_num : (0:ℚ) ≤ 3/5)]
  refine ⟨by rw [h1.1, e1], ?_, ?_⟩
  · rcases Bool.eq_false_or_eq_true (sh_update_thermostat sampleCfg sampleSys (7/5)).updated
      with hb | hb
    · exfalso
      have hcond := h1.2.1.mp hb
      rw [e1, ha1] at hcond
      norm_num [sampleCfg] at hcond
    · exact h1.2.2.2.1 hb
  · have hu : (sh_update_thermostat sampleCfg sampleSys (8/5)).updated = true := by
      refine h2.2.1.mpr ?_
      rw [e2, ha2]
      norm_num [sampleCfg]
    rw [h2.2.2.1 hu, e2, max_eq_right (by norm_num : (15:ℚ) ≤ 108/5)]

/-- Closed form of the forced-burn stage: the addend rewritten as an
indexed sum over the radiator zones. -/
theorem sh_check_forced_burn_eq (cfg : Config) (s : SysValues) (off : ℚ) :
    sh_check_forced_burn cfg s off
      = if s.wam_errors.getD ROOM_INDEX_FH.CORRIDOR.value 0 + off < 0 ∧
            (∃ a ∈ s.rads_error, cfg.force_burn_thres < a) then
          off + (∑ i ∈ Finset.range s.rads_error.length,
              max (s.rads_error.getD i 0 * cfg.rads_params.getD i 0) 0)
            * cfg.rads_error_factor
        else off := by
  unfold sh_check_forced_burn
  by_cases ht : s.wam_errors.getD ROOM_INDEX_FH.CORRIDOR.value 0 + off < 0 ∧
      ∃ a ∈ s.rads_error, cfg.force_burn_thres < a
  · rw [if_pos ht, if_pos ht]
    have hsum := sum_enum_map (fun i x => max (x * cfg.rads_params.getD i 0) 0) s.rads_error
    simp only [List.map_map, Function.comp_def]
    rw [hsum]
  · rw [if_neg ht, if_neg ht]

/-- Claim C4 (amended): the forced-burn stage applies its addition exactly
when (corridor zone error + current offset) < 0 and some radiator-zone
error strictly exceeds the threshold; when triggered it adds
`sum(max(radiator_error_i * radiator_weight_i, 0)) * forced_burn_factor`
to the incoming offset (the claimed `sum(max(e_i, 0) * w_i)` form agrees
with this only for nonnegative weights), so the offset changes exactly
when the stage triggers and this addend is nonzero; at the example of the
spec (corridor -2, offset -1, radiator errors [0.2, 0, 0.9, 0], threshold
0.5, factor 1.0) with nonnegative bedroom and office weights it adds
`0.9 * weight_bedroom + 0.2 * weight_office`. -/
theorem sh_check_forced_burn_spec (cfg : Config) (s : SysValues) (off : ℚ) :
    (s.wam_errors.getD ROOM_INDEX_FH.CORRIDOR.value 0 + off < 0 ∧
        (∃ a ∈ s.rads_error, cfg.force_burn_thres < a) →
      sh_check_forced_burn cfg s off
        = off + (∑ i ∈ Finset.range s.rads_error.length,
            max (s.rads_error.getD i 0 * cfg.rads_params.getD i 0) 0)
          * cfg.rads_error_factor) ∧
    (¬(s.wam_errors.getD ROOM_INDEX_FH.CORRIDOR.value 0 + off < 0 ∧
        (∃ a ∈ s.rads_error, cfg.force_burn_thres < a)) →
      sh_check_forced_burn cfg s off = off) ∧
    (sh_check_forced_burn cfg s off ≠ off ↔
      ((s.wam_errors.getD ROOM_INDEX_FH.CORRIDOR.value 0 + off < 0 ∧
          (∃ a ∈ s.rads_error, cfg.force_burn_thres < a)) ∧
        (∑ i ∈ Finset.range s.rads_error.length,
            max (s.rads_error.getD i 0 * cfg.rads_params.getD i 0) 0)
          * cfg.rads_error_factor ≠ 0)) ∧
    (∀ w0 w1 w2 w3 : ℚ, 0 ≤ w0 → 0 ≤ w2 →
      sh_check_forced_burn
        { cfg with
            force_burn_thres := 1/2
            rads_error_factor := 1
            rads_params := [w0, w1, w2, w3] }
        { s with
            wam_errors := [0, -2, 0, 0, 0, 0, 0]
            rads_error := [1/5, 0, 9/10, 0] }
        (-1)
        = -1 + (9/10 * w2 + 1/5 * w0)) := by
  refine ⟨?_, ?_, ?_, ?_⟩
  · intro ht
    rw [sh_check_forced_burn_eq, if_pos ht]
  · intro ht
    rw [sh_check_forced_burn_eq, if_neg ht]
  · rw [sh_check_forced_burn_eq]
    by_cases ht : s.wam_errors.getD ROOM_INDEX_FH.CORRIDOR.value 0 + off < 0 ∧
        ∃ a ∈ s.rads_error, cfg.force_burn_thres < a
    · rw [if_pos ht]
      constructor
      · intro hne
        refine ⟨ht, fun h0 => hne ?_⟩
        rw [h0, add_zero]
      · rintro ⟨_, h0⟩ habs
        exact h0 (by linarith [habs])
    · rw [if_neg ht]
      constructor
      · intro hne
        exact absurd rfl hne
      · rintro ⟨h1, _⟩
        exact absurd h1 ht
  · intro w0 w1 w2 w3 hw0 hw2
    have htrig : (({ s with
          wam_errors := [0, -2, 0, 0, 0, 0, 0]
          rads_error := [1/5, 0, 9/10, 0] } : SysValues)).wam_errors.getD
            ROOM_INDEX_FH.CORRIDOR.value 0 + (-1) < 0 ∧
        ∃ a ∈ (({ s with
            wam_errors := [0, -2, 0, 0, 0, 0, 0]
            rads_error := [1/5, 0, 9/10, 0] } : SysValues)).rads_error,
          ({ cfg with
              force_burn_thres := 1/2
              rads_error_factor := 1
              rads_params := [w0, w1, w2, w3] } : Config).force_burn_thres < a := by
      constructor
      · norm_num [ROOM_INDEX_FH.value]
      · refine ⟨9/10, by simp, by norm_num⟩
    rw [sh_check_forced_burn_eq, if_pos htrig]
    simp only [List.length_cons, List.length_nil, Finset.sum_range_succ,
      Finset.sum_range_zero, List.getD_cons_zero, List.getD_cons_succ]
    rw [max_eq_left (by positivity : 0 ≤ (1:ℚ)/5 * w0),
      max_eq_left (by positivity : 0 ≤ (9:ℚ)/10 * w2)]
    norm_num
    ring

/-- Witness for C4 at the example of the spec with all radiator weights
1/4: the stage adds 0.9/4 + 0.2/4 to the incoming offset -1. -/
theorem sh_check_forced_burn_spec_witness :
    sh_check_forced_burn
      { sampleCfg with
          force_burn_thres := 1/2
          rads_error_factor := 1
          rads_params := [1/4, 1/4, 1/4, 1/4] }
      { sampleSys with
          wam_errors := [0, -2, 0, 0, 0, 0, 0]
          rads_error := [1/5, 0, 9/10, 0] }
      (-1) = -1 + (9/10 * (1/4) + 1/5 * (1/4)) := by
  exact (sh_check_forced_burn_spec sampleCfg sampleSys (-1)).2.2.2 (1/4) (1/4) (1/4) (1/4)
    (by norm_num) (by norm_num)

/-- Claim C4 counterexample: with corridor error -2, incoming offset 0,
radiator errors [1, 0, 0, 0], threshold 1/2, factor 1 and radiator
weights [-1, 1/2, 1/2, 1] (the normalization of the legal raw factors
(-2, 1, 1, 2)), the trigger condition of the claim holds, yet the code
leaves the offset unchanged at 0 - refuting both directions of the claim:
the offset does not change although the stage triggered, and the claimed
formula `sum(max(e_i, 0) * w_i) * factor` predicts the stage adds -1. -/
theorem sh_check_forced_burn_cex :
    (cexSysC4.wam_errors.getD ROOM_INDEX_FH.CORRIDOR.value 0 + 0 < 0 ∧
      ∃ a ∈ cexSysC4.rads_error, cexCfgC4.force_burn_thres < a) ∧
    sh_check_forced_burn cexCfgC4 cexSysC4 0 = 0 ∧
    (0 : ℚ) + (∑ i ∈ Finset.range 4,
        max (cexSysC4.rads_error.getD i 0) 0 * cexCfgC4.rads_params.getD i 0)
      * cexCfgC4.rads_error_factor = -1 := by
  have htrig : cexSysC4.wam_errors.getD ROOM_INDEX_FH.CORRIDOR.value 0 + 0 < 0 ∧
      ∃ a ∈ cexSysC4.rads_error, cexCfgC4.force_burn_thres < a := by
    constructor
    · norm_num [cexSysC4, sampleSys, ROOM_INDEX_FH.value]
    · refine ⟨1, by simp [cexSysC4, sampleSys], by norm_num [cexCfgC4, sampleCfg]⟩
  refine ⟨htrig, ?_, ?_⟩
  · rw [sh_check_forced_burn_eq, if_pos htrig]
    norm_num [cexSysC4, cexCfgC4, sampleSys, sampleCfg, Finset.sum_range_succ]
  · norm_num [cexSysC4, cexCfgC4, sampleSys, sampleCfg, Finset.sum_range_succ]

/-- Claim C6: each of the 5 valves is commanded to boost exactly when the
owning radiator-zone error exceeds 0.5 and the valve's own reported
position is below the boost threshold (the two bedroom valves share the
bedroom zone error, each with its own position check), and the decision
list is a memoryless function of the radiator errors and valve positions
alone, so repeated invocations on unchanged inputs decide identically. -/
theorem sh_update_TRVs_spec (cfg : Config) (s : SysValues) :
    (∀ trv : TRV_INDEX, (trv, true) ∈ sh_update_TRVs cfg s ↔
      (0.5 < s.rads_error.getD (trvOwner trv).value 0 ∧
        s.radiator_positions.getD trv.value 0 < cfg.radiator_boost_threshold)) ∧
    (∀ s2 : SysValues, s2.rads_error = s.rads_error →
      s2.radiator_positions = s.radiator_positions →
      sh_update_TRVs cfg s2 = sh_update_TRVs cfg s) := by
  constructor
  · intro trv
    cases trv <;>
      simp [sh_update_TRVs, trv_mappings, update_trv, trvOwner, decide_eq_true_eq]
  · intro s2 h1 h2
    simp [sh_update_TRVs, update_trv, h1, h2]

/-- Witness for C6: with bedroom error 1 and left valve position 10 below
the threshold 50 but right valve position 90 above it, only the left
bedroom valve boosts; and the decision list is unchanged when rebuilt
from a state agreeing on errors and positions. -/
theorem sh_update_TRVs_spec_witness :
    ((TRV_INDEX.BEDROOM_LEFT, true) ∈ sh_update_TRVs sampleCfg
      { sampleSys with
          rads_error := [0, 0, 1, 0]
          radiator_positions := [50, 50, 10, 90, 50] }) ∧
    ¬((TRV_INDEX.BEDROOM_RIGHT, true) ∈ sh_update_TRVs sampleCfg
      { sampleSys with
          rads_error := [0, 0, 1, 0]
          radiator_positions := [50, 50, 10, 90, 50] }) ∧
    sh_update_TRVs sampleCfg
        { sampleSys with
            rads_error := [0, 0, 1, 0]
            radiator_positions := [50, 50, 10, 90, 50]
            warm_flag := true }
      = sh_update_TRVs sampleCfg
        { sampleSys with
            rads_error := [0, 0, 1, 0]
            radiator_positions := [50, 50, 10, 90, 50] } := by
  refine ⟨?_, ?_, ?_⟩
  · refine ((sh_update_TRVs_spec sampleCfg
      { sampleSys with
          rads_error := [0, 0, 1, 0]
          radiator_positions := [50, 50, 10, 90, 50] }).1 TRV_INDEX.BEDROOM_LEFT).mpr ?_
    constructor
    · norm_num [trvOwner, ROOM_INDEX_RAD.value]
    · norm_num [TRV_INDEX.value, sampleCfg]
  · intro hmem
    have h := ((sh_update_TRVs_spec sampleCfg
      { sampleSys with
          rads_error := [0, 0, 1, 0]
          radiator_positions := [50, 50, 10, 90, 50] }).1 TRV_INDEX.BEDROOM_RIGHT).mp hmem
    have h2 := h.2
    norm_num [TRV_INDEX.value, sampleCfg] at h2
  · exact (sh_update_TRVs_spec sampleCfg
      { sampleSys with
          rads_error := [0, 0, 1, 0]
          radiator_positions := [50, 50, 10, 90, 50] }).2
      { sampleSys with
          rads_error := [0, 0, 1, 0]
          radiator_positions := [50, 50, 10, 90, 50]
          warm_flag := true } rfl rfl

theorem mapM_lookup_ok (fd : List (String × ℚ)) (f : String → ℚ) (S : ℚ)
    (rooms : List String) (h : ∀ r ∈ rooms, fd.lookup r = some (f r)) :
    (rooms.mapM fun room =>
        match fd.lookup room with
        | none => Except.error ("missing factor " ++ room)
        | some v => (Except.ok (v / S) : Except String ℚ))
      = Except.ok (rooms.map fun r => f r / S) := by
  induction rooms with
  | nil => rfl
  | cons a l ih =>
    rw [List.mapM_cons, h a (List.mem_cons_self a l),
      ih fun r hr => h r (List.mem_cons_of_mem a hr)]
    rfl

theorem mapM_ok_lookup (fd : List (String × ℚ)) (S : ℚ) (rooms : List String)
    (l : List ℚ)
    (hok : (rooms.mapM fun room =>
        match fd.lookup room with
        | none => Except.error ("missing factor " ++ room)
        | some v => (Except.ok (v / S) : Except String ℚ)) = Except.ok l) :
    ∀ r ∈ rooms, ∃ v, fd.lookup r = some v := by
  induction rooms generalizing l with
  | nil =>
    intro r hr
    cases hr
  | cons a t ih =>
    rw [List.mapM_cons] at hok
    cases hfd : fd.lookup a with
    | none =>
      simp only [hfd] at hok
      exact Except.noConfusion hok
    | some v =>
      simp only [hfd] at hok
      cases htail : (t.mapM fun room =>
          match fd.lookup room with
          | none => Except.error ("missing factor " ++ room)
          | some v => (Except.ok (v / S) : Except String ℚ)) with
      | error e =>
        simp only [htail] at hok
        exact Except.noConfusion hok
      | ok l2 =>
        intro r hr
        rcases List.mem_cons.mp hr with rfl | hr2
        · exact ⟨v, hfd⟩
        · exact ih l2 htail r hr2

/-- Claim C7: normalizing a raw factor map that has every zone key and a
positive factor sum yields the factors each divided by the sum (so the
weights sum to 1), while a missing or empty factor map, a non-positive
factor sum, or a missing zone key makes `init_params_from_args` raise a
configuration error (modelled `Except.error`), which aborts
initialization before the cycle timer is registered. -/
theorem init_params_from_args_spec (rooms : List String) (f : String → ℚ)
    (fd : List (String × ℚ)) (r : String) :
    (rooms ≠ [] → 0 < (rooms.map f).sum →
      init_params_from_args (some (rooms.map fun x => (x, f x))) rooms
          = Except.ok (rooms.map fun x => f x / (rooms.map f).sum) ∧
        (rooms.map fun x => f x / (rooms.map f).sum).sum = 1) ∧
    (∃ msg, init_params_from_args none rooms = Except.error msg) ∧
    (∃ msg, init_params_from_args (some []) rooms = Except.error msg) ∧
    (fd ≠ [] → (fd.map Prod.snd).sum ≤ 0 →
      ∃ msg, init_params_from_args (some fd) rooms = Except.error msg) ∧
    (r ∈ rooms → fd.lookup r = none →
      ∀ l, init_params_from_args (some fd) rooms ≠ Except.ok l) := by
  refine ⟨?_, ⟨"missing factor map", rfl⟩, ⟨"missing factor map", rfl⟩, ?_, ?_⟩
  · intro hne hpos
    have hmapsnd : (rooms.map fun x => (x, f x)).map Prod.snd = rooms.map f := by
      simp [List.map_map, Function.comp_def]
    have hempty : ((rooms.map fun x => (x, f x)).isEmpty = true) = False := by
      cases rooms with
      | nil => exact absurd rfl hne
      | cons a t => simp [List.isEmpty]
    constructor
    · simp only [init_params_from_args]
      rw [if_neg (by rw [hempty]; exact id), hmapsnd, if_neg (not_le.mpr hpos)]
      exact mapM_lookup_ok _ f _ rooms fun x hx => lookup_map_self f rooms x hx
    · rw [sum_map_div f ((rooms.map f).sum) rooms, div_self (ne_of_gt hpos)]
  · intro hfd hsum
    refine ⟨"sum of factors must be positive", ?_⟩
    simp only [init_params_from_args]
    rw [if_neg ?_, if_pos hsum]
    cases fd with
    | nil => exact absurd rfl hfd
    | cons p t => simp [List.isEmpty]
  · intro hr hnone l hok
    simp only [init_params_from_args] at hok
    by_cases hempty : fd.isEmpty = true
    · rw [if_pos hempty] at hok
      exact Except.noConfusion hok
    · rw [if_neg hempty] at hok
      by_cases hsum : (fd.map Prod.snd).sum ≤ 0
      · rw [if_pos hsum] at hok
        exact Except.noConfusion hok
      · rw [if_neg hsum] at hok
        rcases mapM_ok_lookup fd _ rooms l hok r hr with ⟨v, hv⟩
        rw [hnone] at hv
        exact Option.noConfusion hv

/-- Witness for C7: the radiator factor map with every factor 1 normalizes
to weights 1/4 summing to 1, and the error cases at concrete inputs. -/
theorem init_params_from_args_spec_witness :
    init_params_from_args (some (rad_room_names.map fun x => (x, 1)))
        rad_room_names = Except.ok (rad_room_names.map fun _ => (1 : ℚ) / 4) ∧
    (∃ msg, init_params_from_args none rad_room_names = Except.error msg) ∧
    (∃ msg, init_params_from_args (some [("office", -1)]) rad_room_names
      = Except.error msg) ∧
    init_params_from_args (some [("office", 1)]) rad_room_names
      ≠ Except.ok [1] := by
  have h := init_params_from_args_spec rad_room_names (fun _ => 1)
    [("office", -1)] "kidsroom"
  have h2 := init_params_from_args_spec rad_room_names (fun _ => 1)
    [("office", 1)] "kidsroom"
  refine ⟨?_, h.2.1, ?_, ?_⟩
  · have hs : (rad_room_names.map fun _ => (1 : ℚ)).sum = 4 := by
      norm_num [rad_room_names]
    have := (h.1 (by simp [rad_room_names]) (by rw [hs]; norm_num)).1
    rw [hs] at this
    exact this
  · exact h.2.2.2.1 (by simp) (by norm_num)
  · exact h2.2.2.2.2 (by simp [rad_room_names])
      (by simp [List.lookup]) [1]

/-- Claim C9: every cycle rounds the final chain offset to one decimal
place, records it as the output offset, and passes exactly this rounded
value to the actuation gate, so the candidate setpoint is always computed
from a one-decimal offset (an integer number of tenths). -/
theorem sh_main_loop_rounds_offset (cfg : Config) (s : SysValues) :
    (sh_main_loop cfg s).off_final_rounded
        = roundTo 1 (calculate_final_offset cfg s 0).off_final ∧
    (sh_main_loop cfg s).thermo
        = sh_update_thermostat cfg s
            (roundTo 1 (calculate_final_offset cfg s 0).off_final) ∧
    ∃ k : ℤ, (sh_main_loop cfg s).off_final_rounded = (k : ℚ) / 10 := by
  refine ⟨rfl, rfl,
    ⟨rndHalfEven ((calculate_final_offset cfg s 0).off_final * 10 ^ 1), ?_⟩⟩
  show roundTo 1 (calculate_final_offset cfg s 0).off_final = _
  rw [roundTo]
  norm_num

/-- Claim C10: a flag read returns true exactly when the backing state is
the string "on"; a `None`, "unknown", "unavailable" or any other state
yields false without signalling a hardware fault, so a warm or freezing
flag that is not "on" contributes offset 0 and a force-flow flag that is
not "on" can never trigger the safety force-flow override. -/
theorem sh_get_flag_value_spec (flag_entity : String) (st : Option String)
    (he : flag_entity ≠ "") (v : ℚ) (cfg : Config) (s : SysValues) (off : ℚ) :
    ((sh_get_flag_value flag_entity st).1 = true ↔ st = some "on") ∧
    (sh_get_flag_value flag_entity st).2 = false ∧
    (st ≠ some "on" → sh_get_offset_flag flag_entity st v = 0) ∧
    (st ≠ some "on" → s.force_flow_flag = (sh_get_flag_value flag_entity st).1 →
      sh_force_flow_for_safety_prio cfg s off = off) := by
  have hval : (sh_get_flag_value flag_entity st).1 = decide (st = some "on") := by
    unfold sh_get_flag_value
    rw [if_neg he]
    by_cases hinv : st = none ∨ st = some "unknown" ∨ st = some "unavailable"
    · rw [if_pos hinv]
      rcases hinv with h | h | h <;> subst h <;> rfl
    · rw [if_neg hinv]
  have hfault : (sh_get_flag_value flag_entity st).2 = false := by
    unfold sh_get_flag_value
    rw [if_neg he]
    by_cases hinv : st = none ∨ st = some "unknown" ∨ st = some "unavailable"
    · rw [if_pos hinv]
    · rw [if_neg hinv]
  refine ⟨?_, hfault, ?_, ?_⟩
  · rw [hval]
    exact decide_eq_true_iff
  · intro hne
    unfold sh_get_offset_flag
    rw [hval, if_neg (by simp [hne])]
  · intro hne hflag
    have hff : s.force_flow_flag = false := by
      rw [hflag, hval]
      simp [hne]
    unfold sh_force_flow_for_safety_prio
    by_cases hb : 0 < s.rads_error.getD ROOM_INDEX_RAD.BEDROOM.value 0
    · rw [if_pos hb, hff]
      rfl
    · rw [if_neg hb]

/-- Witness for C10 at concrete inputs: an "unavailable" force-flow flag
reads false and fails to trigger force-flow even with a positive bedroom
error, and an "unavailable" warm flag contributes offset 0. -/
theorem sh_get_flag_value_spec_witness :
    (sh_get_flag_value "input_boolean.force_flow" (some "unavailable")).1 = false ∧
    sh_get_offset_flag "input_boolean.make_warm" (some "unavailable") 2 = 0 ∧
    sh_force_flow_for_safety_prio sampleCfg
      { sampleSys with
          rads_error := [0, 0, 1, 0]
          force_flow_flag :=
            (sh_get_flag_value "input_boolean.force_flow" (some "unavailable")).1 }
      7 = 7 := by
  have h := sh_get_flag_value_spec "input_boolean.force_flow" (some "unavailable")
    (by simp) (2 : ℚ) sampleCfg
    { sampleSys with
        rads_error := [0, 0, 1, 0]
        force_flow_flag :=
          (sh_get_flag_value "input_boolean.force_flow" (some "unavailable")).1 }
    7
  have h2 := sh_get_flag_value_spec "input_boolean.make_warm" (some "unavailable")
    (by simp) (2 : ℚ) sampleCfg sampleSys 7
  refine ⟨?_, h2.2.2.1 (by simp), h.2.2.2 (by simp) rfl⟩
  rcases Bool.eq_false_or_eq_true
      (sh_get_flag_value "input_boolean.force_flow" (some "unavailable")).1 with hb | hb
  · exfalso
    have := h.1.mp hb
    simp at this
  · exact hb

/-- Claim C1 (amended): when the weighted error aggregator is undefined
(NaN), the voting stage signals a hardware fault (the safe-state
transition that cancels future cycle timers) and discards the undefined
value, returning its input offset unchanged - so the NaN never reaches
actuation; however the rule chain is not aborted: the remaining four
stages still run in the same cycle, whose offset and setpoint update are
still applied. -/
theorem sh_apply_wam_voting_nan_spec (cfg : Config) (s : SysValues) (off : ℚ)
    (h : sh_wam s.wam_errors cfg.wam_params = none) :
    sh_apply_wam_voting cfg s off = (off, true) ∧
    (calculate_final_offset cfg s off).hw_fault = true ∧
    (calculate_final_offset cfg s off).off_final
      = sh_force_flow_for_safety_prio cfg s (sh_check_forced_burn cfg s
          (sh_apply_weather_forecast cfg s (sh_apply_warm_flag cfg s off))) ∧
    (sh_main_loop cfg s).hw_fault = true := by
  have hv : sh_apply_wam_voting cfg s off = (off, true) := by
    unfold sh_apply_wam_voting
    rw [h]
  have hv0 : sh_apply_wam_voting cfg s 0 = (0, true) := by
    unfold sh_apply_wam_voting
    rw [h]
  refine ⟨hv, ?_, ?_, ?_⟩
  · show (sh_apply_wam_voting cfg s off).2 = true
    rw [hv]
  · show sh_force_flow_for_safety_prio cfg s (sh_check_forced_burn cfg s
        (sh_apply_weather_forecast cfg s
          (sh_apply_warm_flag cfg s (sh_apply_wam_voting cfg s off).1))) = _
    rw [hv]
  · show (sh_apply_wam_voting cfg s 0).2 = true
    rw [hv0]

/-- Witness for C1 at concrete inputs: a 7-error list against an empty
weight list is undefined, the voting stage faults and passes offset 5
through unchanged. -/
theorem sh_apply_wam_voting_nan_spec_witness :
    sh_wam cexSysC1.wam_errors cexCfgC1.wam_params = none ∧
    sh_apply_wam_voting cexCfgC1 cexSysC1 5 = (5, true) := by
  have hnan : sh_wam cexSysC1.wam_errors cexCfgC1.wam_params = none := rfl
  exact ⟨hnan, (sh_apply_wam_voting_nan_spec cexCfgC1 cexSysC1 5 hnan).1⟩

/-- Claim C1 counterexample: in a cycle whose voting stage is undefined
(empty weight list against 7 errors) but whose warm flag is on, the fault
is signalled, yet the chain is not aborted: the cycle still produces the
nonzero offset 2 and still issues a thermostat write of 22 - refuting
that no offset and no setpoint change is applied in that cycle. -/
theorem sh_main_loop_nan_cex :
    sh_wam cexSysC1.wam_errors cexCfgC1.wam_params = none ∧
    (sh_main_loop cexCfgC1 cexSysC1).hw_fault = true ∧
    (sh_main_loop cexCfgC1 cexSysC1).off_final_rounded = 2 ∧
    (sh_main_loop cexCfgC1 cexSysC1).thermo.updated = true ∧
    (sh_main_loop cexCfgC1 cexSysC1).thermo.written = some 22 := by
  refine ⟨rfl, rfl, ?_⟩
  norm_num [sh_main_loop, calculate_final_offset, sh_apply_wam_voting, sh_wam,
    sh_apply_warm_flag, sh_apply_weather_forecast, sh_get_offset_warm_flag,
    sh_get_offset_frezzing_flag, sh_check_forced_burn, sh_force_flow_for_safety_prio,
    sh_update_thermostat, sh_set_thermostat_setpoint, sh_set_value_written,
    roundTo, rndHalfEven, cexCfgC1, cexSysC1, sampleCfg, sampleSys,
    ROOM_INDEX_FH.value, ROOM_INDEX_RAD.value]

end SmartHeating
